import Mathlib

/-!
Verification of the CORS proxy server (public/proxy-server/scripts/proxy.py)
against its natural-language specification.

The development is a shallow embedding of the request-relay pipeline:
pure Lean functions mirror the Python handler code.  Inbound and outbound
header collections are association lists of (name, value) pairs, in order,
duplicates preserved (the parsed header multimap of the data model).
Bytes are modelled as Lean characters/strings; all the payloads the claims
exercise are byte-transparent so this is faithful for them.

Python standard-library calls used by the source (str.lower, str.split,
base64.b64decode, bytes.decode, urllib.parse, int(...)) are embedded as
executable Lean functions whose doc comments state the modelled behaviour
and any corner that is deliberately out of scope.
-/

namespace Proxy

/-! ## Character case operations

The source calls Python `str.lower()` and `str.capitalize()` on header
names and on the auth scheme token.  Lean core `Char.toLower/toUpper`
implement exactly the ASCII (basic-latin) case mapping, which is what
Python performs on the ASCII header names and scheme tokens this program
manipulates; non-ASCII case folding is not modelled. -/

theorem char_toNat_ofNat (n : Nat) (h : n < 55296) : (Char.ofNat n).toNat = n := by
  rw [Char.ofNat, dif_pos (Or.inl h)]
  rfl

theorem toLower_toUpper (c : Char) : (c.toUpper).toLower = c.toLower := by
  unfold Char.toUpper Char.toLower
  by_cases h : c.toNat ≥ 97 ∧ c.toNat ≤ 122
  · rw [if_pos h]
    have hv : (Char.ofNat (c.toNat - 32)).toNat = c.toNat - 32 :=
      char_toNat_ofNat _ (by omega)
    rw [if_pos (by omega : (Char.ofNat (c.toNat - 32)).toNat ≥ 65 ∧
          (Char.ofNat (c.toNat - 32)).toNat ≤ 90)]
    rw [if_neg (by omega : ¬(c.toNat ≥ 65 ∧ c.toNat ≤ 90))]
    rw [hv]
    have : c.toNat - 32 + 32 = c.toNat := by omega
    rw [this, Char.ofNat_toNat]
  · rw [if_neg h]

theorem toLower_toLower (c : Char) : (c.toLower).toLower = c.toLower := by
  unfold Char.toLower
  by_cases h : c.toNat ≥ 65 ∧ c.toNat ≤ 90
  · rw [if_pos h]
    have hv : (Char.ofNat (c.toNat + 32)).toNat = c.toNat + 32 :=
      char_toNat_ofNat _ (by omega)
    rw [if_neg (by omega : ¬((Char.ofNat (c.toNat + 32)).toNat ≥ 65 ∧
          (Char.ofNat (c.toNat + 32)).toNat ≤ 90))]
  · rw [if_neg h, if_neg h]

theorem toUpper_toLower (c : Char) : (c.toLower).toUpper = c.toUpper := by
  unfold Char.toUpper Char.toLower
  by_cases h : c.toNat ≥ 65 ∧ c.toNat ≤ 90
  · rw [if_pos h]
    have hv : (Char.ofNat (c.toNat + 32)).toNat = c.toNat + 32 :=
      char_toNat_ofNat _ (by omega)
    rw [if_pos (by omega : (Char.ofNat (c.toNat + 32)).toNat ≥ 97 ∧
          (Char.ofNat (c.toNat + 32)).toNat ≤ 122)]
    rw [if_neg (by omega : ¬(c.toNat ≥ 97 ∧ c.toNat ≤ 122))]
    rw [hv]
    have : c.toNat + 32 - 32 = c.toNat := by omega
    rw [this, Char.ofNat_toNat]
  · rw [if_neg h]

/-- Models Python `str.lower()` (ASCII case mapping, see above). -/
def lowerStr (s : String) : String := String.mk (s.data.map Char.toLower)

/-- Models Python `str.capitalize()` on the character list: first character
upper-cased, the rest lower-cased.  `urllib.request.Request.add_header`
applies this to every outbound header name before storing it. -/
def capList : List Char → List Char
  | [] => []
  | c :: cs => c.toUpper :: cs.map Char.toLower

/-- Models Python `str.capitalize()`. -/
def pyCapitalize (s : String) : String := String.mk (capList s.data)

theorem lower_pyCapitalize (s : String) : lowerStr (pyCapitalize s) = lowerStr s := by
  cases s with
  | mk data =>
    cases data with
    | nil => rfl
    | cons c cs =>
      show String.mk (List.map Char.toLower (capList (c :: cs))) =
        String.mk (List.map Char.toLower (c :: cs))
      rw [capList]
      simp only [List.map_cons, List.map_map]
      refine congrArg String.mk ?_
      refine congrArg₂ List.cons (toLower_toUpper c) ?_
      apply List.map_congr_left
      intro a _
      simp only [Function.comp_apply]
      exact toLower_toLower a

theorem pyCapitalize_of_lower_eq {s t : String} (h : lowerStr s = lowerStr t) :
    pyCapitalize s = pyCapitalize t := by
  cases s with
  | mk ds =>
    cases t with
    | mk dt =>
      have h' : ds.map Char.toLower = dt.map Char.toLower := congrArg String.data h
      cases ds with
      | nil =>
        cases dt with
        | nil => rfl
        | cons b bs => simp at h'
      | cons a as =>
        cases dt with
        | nil => simp at h'
        | cons b bs =>
          simp only [List.map_cons, List.cons.injEq] at h'
          show String.mk (capList (a :: as)) = String.mk (capList (b :: bs))
          rw [capList, capList, h'.2]
          have : a.toUpper = b.toUpper := by
            rw [← toUpper_toLower a, ← toUpper_toLower b, h'.1]
          rw [this]

/-! ## String splitting helpers -/

/-- Split a character list at the first occurrence of `sep`; `none` when
`sep` does not occur.  Models Python `s.split(sep, 1)` when the result is
unpacked into exactly two variables (unpacking a one-element list raises
`ValueError`, hence `none`). -/
def splitOnceAux (sep : Char) : List Char → Option (List Char × List Char)
  | [] => none
  | c :: cs =>
    if c = sep then some ([], cs)
    else
      match splitOnceAux sep cs with
      | none => none
      | some (a, b) => some (c :: a, b)

/-- `splitOnceAux` lifted to `String`. -/
def splitOnce (s : String) (sep : Char) : Option (String × String) :=
  match splitOnceAux sep s.data with
  | none => none
  | some (a, b) => some (String.mk a, String.mk b)

/-- Split a character list on every occurrence of `sep`.
Models Python `s.split(sep)` with an explicit separator: `""` yields
`[""]`, adjacent separators yield empty fields. -/
def splitAllAux (sep : Char) : List Char → List (List Char)
  | [] => [[]]
  | c :: cs =>
    let r := splitAllAux sep cs
    if c = sep then [] :: r
    else
      match r with
      | h :: t => (c :: h) :: t
      | [] => [[c]]

/-! ## Header multimap access -/

/-- Models `email.message.Message.get` as used by `self.headers.get(name)`:
case-insensitive name comparison, first matching header wins, `none`
when the header is absent. -/
def msgGet : List (String × String) → String → Option String
  | [], _ => none
  | (k, v) :: rest, name =>
    if lowerStr k = lowerStr name then some v else msgGet rest name

/-- Exact-key lookup in an association list (first match), used to read
entries of the outbound header dict built by `Request.add_header`. -/
def getHeader : List (String × String) → String → Option String
  | [], _ => none
  | (k, v) :: rest, key => if k = key then some v else getHeader rest key

/-! ## base64 and UTF-8 decoding

The Access Gate runs `base64.b64decode(credentials).decode("utf-8")`
inside a `try`.  `b64decode` (lenient mode, `validate=False`) first
ASCII-encodes its `str` argument (failure for any non-ASCII character),
then discards characters outside the base64 alphabet, then requires the
remaining data plus trailing `=` padding to fill quads.  A `=` followed
by further data characters is rejected here, whereas lenient CPython
flushes the quad and keeps decoding; no claim exercises that corner. -/

def b64Alphabet (c : Char) : Bool :=
  (65 ≤ c.toNat && c.toNat ≤ 90) || (97 ≤ c.toNat && c.toNat ≤ 122) ||
  (48 ≤ c.toNat && c.toNat ≤ 57) || c = '+' || c = '/'

def b64Val (c : Char) : Nat :=
  if 65 ≤ c.toNat && c.toNat ≤ 90 then c.toNat - 65
  else if 97 ≤ c.toNat && c.toNat ≤ 122 then c.toNat - 71
  else if 48 ≤ c.toNat && c.toNat ≤ 57 then c.toNat + 4
  else if c = '+' then 62
  else 63

/-- Decode a list of 6-bit values into bytes (final group of two or three
values contributes one or two bytes). -/
def b64Quads : List Nat → List Nat
  | a :: b :: c :: d :: rest =>
    (a * 4 + b / 16) :: (b % 16 * 16 + c / 4) :: (c % 4 * 64 + d) :: b64Quads rest
  | [a, b] => [a * 4 + b / 16]
  | [a, b, c] => [a * 4 + b / 16, b % 16 * 16 + c / 4]
  | _ => []

/-- Models `base64.b64decode` on a `str` argument (see section comment). -/
def b64decodeBytes (s : String) : Option (List Nat) :=
  let cs := s.data
  if cs.any (fun c => 128 ≤ c.toNat) then none
  else
    let cleaned := cs.filter (fun c => b64Alphabet c || c = '=')
    let dataPart := cleaned.takeWhile (fun c => c ≠ '=')
    let padPart := cleaned.drop dataPart.length
    if padPart.any (fun c => c ≠ '=') then none
    else if (dataPart.length + padPart.length) % 4 ≠ 0 then none
    else if dataPart.length % 4 = 1 then none
    else some (b64Quads (dataPart.map b64Val))

/-- Strict UTF-8 decoder, models `bytes.decode("utf-8")`: rejects stray
continuation bytes, overlong encodings, surrogates and out-of-range
codepoints, exactly the inputs on which Python raises `UnicodeDecodeError`. -/
def utf8Decode : List Nat → Option (List Char)
  | [] => some []
  | b :: rest =>
    if b ≤ 0x7F then (utf8Decode rest).map (fun cs => Char.ofNat b :: cs)
    else if b < 0xC2 then none
    else if b ≤ 0xDF then
      match rest with
      | b2 :: rest2 =>
        if 0x80 ≤ b2 && b2 ≤ 0xBF then
          (utf8Decode rest2).map (fun cs => Char.ofNat ((b - 0xC0) * 64 + (b2 - 0x80)) :: cs)
        else none
      | [] => none
    else if b ≤ 0xEF then
      match rest with
      | b2 :: b3 :: rest3 =>
        let lo2 := if b = 0xE0 then 0xA0 else 0x80
        let hi2 := if b = 0xED then 0x9F else 0xBF
        if (lo2 ≤ b2 && b2 ≤ hi2) && (0x80 ≤ b3 && b3 ≤ 0xBF) then
          (utf8Decode rest3).map (fun cs =>
            Char.ofNat ((b - 0xE0) * 4096 + (b2 - 0x80) * 64 + (b3 - 0x80)) :: cs)
        else none
      | _ => none
    else if b ≤ 0xF4 then
      match rest with
      | b2 :: b3 :: b4 :: rest4 =>
        let lo2 := if b = 0xF0 then 0x90 else 0x80
        let hi2 := if b = 0xF4 then 0x8F else 0xBF
        if (lo2 ≤ b2 && b2 ≤ hi2) && (0x80 ≤ b3 && b3 ≤ 0xBF) && (0x80 ≤ b4 && b4 ≤ 0xBF) then
          (utf8Decode rest4).map (fun cs =>
            Char.ofNat ((b - 0xF0) * 262144 + (b2 - 0x80) * 4096 + (b3 - 0x80) * 64 + (b4 - 0x80)) :: cs)
        else none
      | _ => none
    else none

/-- Models `base64.b64decode(s).decode("utf-8")`, `none` on either failure. -/
def b64decodeUtf8 (s : String) : Option String :=
  match b64decodeBytes s with
  | none => none
  | some bytes =>
    match utf8Decode bytes with
    | none => none
    | some cs => some (String.mk cs)

/-! ## Query-string parsing

Models the `urllib.parse.urlparse(self.path)` / `parse_qs(query)` pair
used for the `?url=` fallback.  `self.path` of an origin-form HTTP
request starts with `/`, for which `urlparse` yields as query exactly
the text after the first `?` and before any `#`.  `parse_qs` with its
defaults splits fields on `&`, keeps only fields with an `=` and a
non-blank value, and percent-decodes names and values (`+` is space).
Multi-byte UTF-8 percent-escape sequences are decoded bytewise here;
the claims only exercise escape-free values. -/

def hexVal (c : Char) : Option Nat :=
  if 48 ≤ c.toNat && c.toNat ≤ 57 then some (c.toNat - 48)
  else if 65 ≤ c.toNat && c.toNat ≤ 70 then some (c.toNat - 55)
  else if 97 ≤ c.toNat && c.toNat ≤ 102 then some (c.toNat - 87)
  else none

def pctDecode : List Char → List Char
  | '%' :: a :: b :: rest =>
    match hexVal a, hexVal b with
    | some x, some y => Char.ofNat (16 * x + y) :: pctDecode rest
    | _, _ => '%' :: pctDecode (a :: b :: rest)
  | c :: rest => c :: pctDecode rest
  | [] => []

/-- Models `urllib.parse.unquote_plus` (see section comment). -/
def unquotePlus (cs : List Char) : List Char :=
  pctDecode (cs.map (fun c => if c = '+' then ' ' else c))

/-- The query component `urllib.parse.urlparse(path).query`. -/
def urlQuery (path : String) : List Char :=
  let noFrag := path.data.takeWhile (fun c => c ≠ '#')
  match splitOnceAux '?' noFrag with
  | none => []
  | some (_, rest) => rest

/-- Models `urllib.parse.parse_qsl(query)` with default arguments
(`keep_blank_values=False`): the ordered (name, value) pairs. -/
def parseQSL (query : List Char) : List (String × String) :=
  (splitAllAux '&' query).filterMap (fun field =>
    match field with
    | [] => none
    | _ =>
      match splitOnceAux '=' field with
      | none => none
      | some (n, v) =>
        if v = [] then none
        else some (String.mk (unquotePlus n), String.mk (unquotePlus v)))

/-- `parse_qs(query).get("url", [None])[0]`: the first value of the
`url` query parameter, if any. -/
def firstUrlParam (query : List Char) : Option String :=
  match (parseQSL query).find? (fun p => p.1 = "url") with
  | none => none
  | some p => some p.2

/-! ## Python `int(...)` -/

/-- Models `int(s)` for a decimal string: surrounding whitespace
stripped, optional sign, at least one digit; `none` when Python raises
`ValueError`.  Underscore digit grouping is not modelled. -/
def pyInt (s : String) : Option Int :=
  let t := (s.data.dropWhile Char.isWhitespace).reverse.dropWhile Char.isWhitespace |>.reverse
  let core : List Char → Option Nat := fun ds =>
    if ds = [] then none
    else if ds.all Char.isDigit then
      some (ds.foldl (fun a c => 10 * a + (c.toNat - 48)) 0)
    else none
  match t with
  | '+' :: ds => (core ds).map Int.ofNat
  | '-' :: ds => (core ds).map (fun n => -(Int.ofNat n))
  | ds => (core ds).map Int.ofNat

/-! ## Data model -/

/-- The `--origin` configuration value: a string (the literal `*`
meaning wildcard) or a list of allowed origins.  Mirrors the dynamic
type inspection `config.cors_origin == "*"` / `isinstance(..., list)`. -/
inductive CorsOrigin where
  | str (s : String)
  | list (l : List String)
deriving DecidableEq, Repr

/-- The parts of `ProxyConfig` the relay pipeline reads.  `username` and
`password` are `none` when the flag was not given; listening host/port,
verbosity and the SSL mode do not influence any modelled observable and
are elided. -/
structure Config where
  corsOrigin : CorsOrigin
  username : Option String
  password : Option String
deriving DecidableEq, Repr

/-- An inbound request as seen by `handle_request`: method, raw path
(with query string), parsed header multimap (ordered, duplicates
preserved), and the readable body bytes. -/
structure Request where
  method : String
  path : String
  headers : List (String × String)
  body : String
deriving DecidableEq, Repr

/-- Python truthiness of an optional string (`not x` is true for `None`
and for the empty string). -/
def pyTruthy (o : Option String) : Bool :=
  match o with
  | none => false
  | some s => s ≠ ""

/-- The `or`-chained header read
`self.headers.get("Proxy-Authorization") or self.headers.get("Authorization")`:
Python `or` takes the second operand whenever the first is falsy, so an
absent or empty `Proxy-Authorization` falls back to `Authorization`. -/
def effectiveAuthHeader (hs : List (String × String)) : Option String :=
  match msgGet hs "Proxy-Authorization" with
  | some s => if s = "" then msgGet hs "Authorization" else some s
  | none => msgGet hs "Authorization"

/-- `CORSProxyHandler.check_auth`, translated clause by clause.  Every
Python exception path inside the `try` (no space in the header value,
base64 failure, UTF-8 failure, no colon in the decoded pair) is a
`false` return. -/
def check_auth (cfg : Config) (hs : List (String × String)) : Bool :=
  if pyTruthy cfg.username = false ∨ pyTruthy cfg.password = false then true
  else
    match effectiveAuthHeader hs with
    | none => false
    | some raw =>
      if raw = "" then false
      else
        match splitOnce raw ' ' with
        | none => false
        | some (authType, credentials) =>
          if lowerStr authType ≠ "basic" then false
          else
            match b64decodeUtf8 credentials with
            | none => false
            | some decoded =>
              match splitOnce decoded ':' with
              | none => false
              | some (username, password) =>
                cfg.username = some username && cfg.password = some password

/-- Modelled from the spec wording, for comparison with `check_auth`: the
claim reads the `Proxy-Authorization` header, "falling back to
`Authorization` if the former is absent (first present wins)" — that is,
a present-but-empty `Proxy-Authorization` would be the header used.
Identical to `check_auth` in every other respect. -/
def claimedAuth (cfg : Config) (hs : List (String × String)) : Bool :=
  if pyTruthy cfg.username = false ∨ pyTruthy cfg.password = false then true
  else
    match (match msgGet hs "Proxy-Authorization" with
           | some s => some s
           | none => msgGet hs "Authorization") with
    | none => false
    | some raw =>
      if raw = "" then false
      else
        match splitOnce raw ' ' with
        | none => false
        | some (authType, credentials) =>
          if lowerStr authType ≠ "basic" then false
          else
            match b64decodeUtf8 credentials with
            | none => false
            | some decoded =>
              match splitOnce decoded ':' with
              | none => false
              | some (username, password) =>
                cfg.username = some username && cfg.password = some password

/-! ## Outbound header construction

`handle_request` copies inbound headers with
`for header, value in self.headers.items():
   if header.lower() not in skip_headers: req.add_header(header, value)`.
`urllib.request.Request.add_header(key, val)` executes
`self.headers[key.capitalize()] = val`: the stored name is capitalized
and the store is a dict, so a later header with the same capitalized
name overwrites an earlier one.  (The transport layer below `urlopen`
later adds its own `Host`, `Connection: close` etc.; the OutboundRequest
modelled here is the header set the handler itself builds, which is what
the spec describes.) -/

def skipHeaders : List String :=
  ["host", "connection", "proxy-authorization", "x-target-url", "origin", "referer"]

/-- Python dict assignment `d[k] = v` on an association list: replace the
value of the existing key in place, else append. -/
def dictSet : List (String × String) → String → String → List (String × String)
  | [], k, v => [(k, v)]
  | (k', v') :: rest, k, v =>
    if k' = k then (k', v) :: rest else (k', v') :: dictSet rest k v

/-- The header-copying loop, with the dict built so far as accumulator. -/
def addOutboundHeaders (acc : List (String × String)) :
    List (String × String) → List (String × String)
  | [] => acc
  | (h, v) :: rest =>
    if skipHeaders.contains (lowerStr h) then addOutboundHeaders acc rest
    else addOutboundHeaders (dictSet acc (pyCapitalize h) v) rest

/-- The outbound header dict derived from the inbound header multimap. -/
def buildOutbound (hs : List (String × String)) : List (String × String) :=
  addOutboundHeaders [] hs

/-- The value the outbound dict ends up holding under capitalized key
`key`: the value of the last non-skipped inbound header whose
capitalized name is `key`.  Specification-side companion of
`buildOutbound`, used to state what header copying preserves. -/
def lastValueFor : List (String × String) → String → Option String
  | [], _ => none
  | (h, v) :: rest, key =>
    match lastValueFor rest key with
    | some w => some w
    | none =>
      if skipHeaders.contains (lowerStr h) = false ∧ pyCapitalize h = key then some v
      else none

/-! ## Response writing

`BaseHTTPRequestHandler` output calls are modelled as a trace of write
events: `send_response(code)` emits `statusLine code` (the `Server` and
`Date` headers it auto-appends are below the modelled abstraction),
`send_header` emits `header`, `end_headers` emits `endHeaders`, and each
`wfile.write(chunk)` emits `bodyBytes chunk`. -/

inductive WriteEvent where
  | statusLine (code : Nat)
  | header (name value : String)
  | endHeaders
  | bodyBytes (chunk : String)
deriving DecidableEq, Repr

/-- `send_cors_headers`: the `Access-Control-Allow-Origin` decision from
the configured origin policy and the request `Origin` header, followed
by the four fixed CORS headers. -/
def corsEvents (cfg : Config) (hs : List (String × String)) : List WriteEvent :=
  let origin := (msgGet hs "Origin").getD "*"
  (match cfg.corsOrigin with
   | .str s =>
     if s = "*" then [.header "Access-Control-Allow-Origin" origin]
     else [.header "Access-Control-Allow-Origin" s]
   | .list l =>
     if origin ∈ l then [.header "Access-Control-Allow-Origin" origin] else []) ++
  [.header "Access-Control-Allow-Methods" "GET, POST, PUT, DELETE, PATCH, OPTIONS, HEAD",
   .header "Access-Control-Allow-Headers" "*",
   .header "Access-Control-Allow-Credentials" "true",
   .header "Access-Control-Max-Age" "86400"]

/-- The upstream-response header copy loop shared by the success path and
the `HTTPError` path: every upstream header except `connection` and
`transfer-encoding` (case-insensitive), in order, duplicates preserved. -/
def respHeaderEvents (uhs : List (String × String)) : List WriteEvent :=
  (uhs.filter (fun p =>
    lowerStr p.1 ≠ "connection" ∧ lowerStr p.1 ≠ "transfer-encoding")).map
    (fun p => .header p.1 p.2)

/-- Body of the synthesized 500 response:
`json.dumps(\x7b"error": "Proxy error", "message": str(e)\x7d)`.
JSON string escaping of the message is not modelled (no claim inspects
a message needing escapes); the key/value layout is `json.dumps` output
with its default separators. -/
def errorBody (msg : String) : String :=
  "\x7b\"error\": \"Proxy error\", \"message\": \"" ++ msg ++ "\"\x7d"

/-- Body of the health response:
`json.dumps(\x7b"status": "ok", "version": "1.0.0", "uptime": ...\x7d)`
where `uptime` stands for the rendering of `time.time() - start_time`
(a float, carried as an opaque string). -/
def healthBody (uptime : String) : String :=
  "\x7b\"status\": \"ok\", \"version\": \"1.0.0\", \"uptime\": " ++ uptime ++ "\x7d"

/-- The writes of the `except Exception` handler: 500 status, JSON
content type, CORS headers, JSON error envelope. -/
def error500Events (cfg : Config) (hs : List (String × String)) (msg : String) :
    List WriteEvent :=
  [.statusLine 500, .header "Content-Type" "application/json"] ++ corsEvents cfg hs ++
  [.endHeaders, .bodyBytes (errorBody msg)]

/-! ## Body streaming -/

/-- One step of the relay loop `chunk = response.read(8192)` per fuel
unit; fuel is consumed once per chunk, so `length` fuel always suffices. -/
def chunksAux : Nat → List Char → List (List Char)
  | 0, _ => []
  | _, [] => []
  | fuel + 1, l => l.take 8192 :: chunksAux fuel (l.drop 8192)

/-- The successive chunks `response.read(8192)` returns for a body. -/
def bodyChunks (body : String) : List String :=
  (chunksAux body.data.length body.data).map String.mk

/-! ## Target resolution and the relay -/

/-- Target URL extraction: `X-Target-URL` header first (Python truthiness:
an empty value falls through), then the first non-blank `url` query
parameter, `none` when both are missing (the 400 path). -/
def resolveTarget (hs : List (String × String)) (path : String) : Option String :=
  let fromHeader :=
    match msgGet hs "X-Target-URL" with
    | some s => if s = "" then none else some s
    | none => none
  match fromHeader with
  | some t => some t
  | none =>
    match firstUrlParam (urlQuery path) with
    | some v => if v = "" then none else some v
    | none => none

/-- Reading the inbound body: if a non-empty `Content-Length` header is
present, `int(...)` parses it (a `ValueError` lands in the generic
`except` and yields the 500 path) and that many bytes are read and
attached as the outbound data. -/
def inboundData (hs : List (String × String)) (body : String) :
    Except String (Option String) :=
  match msgGet hs "Content-Length" with
  | none => .ok none
  | some s =>
    if s = "" then .ok none
    else
      match pyInt s with
      | some n => .ok (some (String.mk (body.data.take n.toNat)))
      | none => .error ("invalid literal for int() with base 10: \x27" ++ s ++ "\x27")

/-- The outbound `urllib.request.Request` the handler builds. -/
structure OutboundRequest where
  url : String
  method : String
  headers : List (String × String)
  data : Option String
deriving DecidableEq, Repr

/-- Oracle for the outcome of `urllib.request.urlopen` on the outbound
request: a success response (whose body stream delivers `body` and then
either ends or raises `readError` mid-relay), a `urllib.error.HTTPError`
(an upstream non-success status, a distinguishable response), or any
other raised exception (DNS, refused connection, TLS, timeout, malformed
URL), carrying `str(e)`. -/
inductive Upstream where
  | success (code : Nat) (headers : List (String × String)) (body : String)
      (readError : Option String)
  | httpError (code : Nat) (headers : List (String × String)) (body : String)
  | transportError (msg : String)
deriving DecidableEq, Repr

/-- Result of handling one inbound request: the outbound request, when
`urlopen` was reached, and the write trace on the client connection. -/
structure RelayOutcome where
  outbound : Option OutboundRequest
  trace : List WriteEvent
deriving DecidableEq, Repr

/-- `CORSProxyHandler.handle_request`, the dispatch target of every
non-OPTIONS method handler (`do_OPTIONS` answers preflights separately
and never reaches this function).  Verbose logging is a pure side
effect and is not modelled. -/
def handle_request (cfg : Config) (uptime : String) (req : Request)
    (up : Upstream) : RelayOutcome :=
  if req.path = "/health" then
    { outbound := none,
      trace := [.statusLine 200, .header "Content-Type" "application/json"] ++
        corsEvents cfg req.headers ++ [.endHeaders, .bodyBytes (healthBody uptime)] }
  else if check_auth cfg req.headers = false then
    { outbound := none,
      trace := [.statusLine 401, .header "WWW-Authenticate" "Basic realm=\"Proxy\""] ++
        corsEvents cfg req.headers ++ [.endHeaders, .bodyBytes "Unauthorized"] }
  else
    match resolveTarget req.headers req.path with
    | none =>
      { outbound := none,
        trace := [.statusLine 400] ++ corsEvents cfg req.headers ++
          [.endHeaders,
           .bodyBytes "Missing target URL. Use X-Target-URL header or ?url= parameter"] }
    | some url =>
      match inboundData req.headers req.body with
      | .error msg =>
        { outbound := none, trace := error500Events cfg req.headers msg }
      | .ok data =>
        let outReq : OutboundRequest :=
          { url := url, method := req.method,
            headers := buildOutbound req.headers, data := data }
        match up with
        | .transportError msg =>
          { outbound := some outReq, trace := error500Events cfg req.headers msg }
        | .httpError code uhs ubody =>
          { outbound := some outReq,
            trace := .statusLine code :: respHeaderEvents uhs ++
              corsEvents cfg req.headers ++ [.endHeaders, .bodyBytes ubody] }
        | .success code uhs ubody readErr =>
          { outbound := some outReq,
            trace := .statusLine code :: respHeaderEvents uhs ++
              corsEvents cfg req.headers ++ [.endHeaders] ++
              (bodyChunks ubody).map .bodyBytes ++
              (match readErr with
               | none => []
               | some msg => error500Events cfg req.headers msg) }

/-- All body bytes written on the client connection, in order. -/
def writtenBody (t : List WriteEvent) : List Char :=
  (t.filterMap (fun e =>
    match e with
    | .bodyBytes s => some s.data
    | _ => none)).flatten

/-- The status lines written on the client connection, in order. -/
def statusCodesOf (t : List WriteEvent) : List Nat :=
  t.filterMap (fun e =>
    match e with
    | .statusLine c => some c
    | _ => none)

/-! ## Helper lemmas -/

/-- The body-bytes component of a write event. -/
def bodyData (e : WriteEvent) : Option (List Char) :=
  match e with
  | .bodyBytes s => some s.data
  | _ => none

theorem writtenBody_eq (t : List WriteEvent) :
    writtenBody t = (t.filterMap bodyData).flatten := by
  unfold writtenBody bodyData
  rfl

theorem writtenBody_append (a b : List WriteEvent) :
    writtenBody (a ++ b) = writtenBody a ++ writtenBody b := by
  rw [writtenBody_eq, writtenBody_eq, writtenBody_eq, List.filterMap_append,
    List.flatten_append]

theorem writtenBody_cons (e : WriteEvent) (t : List WriteEvent) :
    writtenBody (e :: t) = (bodyData e).getD [] ++ writtenBody t := by
  rw [writtenBody_eq, writtenBody_eq, List.filterMap_cons]
  cases e <;> simp [bodyData]

theorem writtenBody_eq_nil (t : List WriteEvent)
    (h : ∀ e ∈ t, bodyData e = none) : writtenBody t = [] := by
  induction t with
  | nil => rfl
  | cons e t ih =>
    rw [writtenBody_cons, h e (List.mem_cons_self e t), ih
      (fun x hx => h x (List.mem_cons_of_mem e hx))]
    rfl

theorem cors_no_body (cfg : Config) (hs : List (String × String)) :
    ∀ e ∈ corsEvents cfg hs, bodyData e = none := by
  intro e he
  unfold corsEvents at he
  rcases cfg with ⟨co, u, p⟩
  cases co with
  | str s =>
    simp only [List.mem_append] at he
    rcases he with he | he
    · split at he <;> (simp at he; simp [he, bodyData])
    · simp at he
      rcases he with he | he | he | he <;> simp [he, bodyData]
  | list l =>
    simp only [List.mem_append] at he
    rcases he with he | he
    · split at he
      · simp at he
        simp [he, bodyData]
      · simp at he
    · simp at he
      rcases he with he | he | he | he <;> simp [he, bodyData]

theorem resp_no_body (uhs : List (String × String)) :
    ∀ e ∈ respHeaderEvents uhs, bodyData e = none := by
  intro e he
  unfold respHeaderEvents at he
  rcases List.mem_map.mp he with ⟨p, _, hp⟩
  rw [← hp]
  rfl

theorem chunksAux_flatten :
    ∀ (fuel : Nat) (l : List Char), l.length ≤ fuel →
      (chunksAux fuel l).flatten = l := by
  intro fuel
  induction fuel with
  | zero =>
    intro l h
    have : l = [] := List.eq_nil_of_length_eq_zero (by omega)
    subst this
    rfl
  | succ n ih =>
    intro l h
    cases l with
    | nil => rfl
    | cons c cs =>
      show (((c :: cs).take 8192 :: chunksAux n ((c :: cs).drop 8192)).flatten) = c :: cs
      rw [List.flatten_cons, ih ((c :: cs).drop 8192)
        (by rw [List.length_drop]; simp at h ⊢; omega)]
      exact List.take_append_drop 8192 (c :: cs)

theorem chunksAux_bounded :
    ∀ (fuel : Nat) (l : List Char), ∀ c ∈ chunksAux fuel l, c.length ≤ 8192 := by
  intro fuel
  induction fuel with
  | zero => intro l c hc; simp [chunksAux] at hc
  | succ n ih =>
    intro l c hc
    cases l with
    | nil => simp [chunksAux] at hc
    | cons a as =>
      rcases List.mem_cons.mp hc with h | h
      · rw [h, List.length_take]
        omega
      · exact ih _ c h

theorem writtenBody_chunks (b : String) :
    writtenBody ((bodyChunks b).map .bodyBytes) = b.data := by
  unfold bodyChunks
  rw [writtenBody_eq, List.filterMap_map, List.filterMap_map]
  have : ∀ m : List (List Char),
      m.filterMap ((bodyData ∘ WriteEvent.bodyBytes) ∘ String.mk) = m := by
    intro m
    induction m with
    | nil => rfl
    | cons a t ih =>
      rw [List.filterMap_cons]
      exact congrArg (List.cons a) ih
  rw [this]
  exact chunksAux_flatten _ _ (Nat.le_refl _)

/-! ## Outbound header dict lemmas -/

theorem getHeader_dictSet (acc : List (String × String)) (k v key : String) :
    getHeader (dictSet acc k v) key = if k = key then some v else getHeader acc key := by
  induction acc with
  | nil => simp [dictSet, getHeader]
  | cons q rest ih =>
    rcases q with ⟨k', v'⟩
    by_cases h1 : k' = k
    · subst h1
      by_cases h2 : k' = key
      · subst h2
        simp [dictSet, getHeader]
      · simp [dictSet, getHeader, h2]
    · by_cases h2 : k' = key
      · subst h2
        have hk : ¬ k = k' := fun e => h1 e.symm
        simp [dictSet, getHeader, h1, hk]
      · simp [dictSet, getHeader, h1, h2, ih]

theorem mem_dictSet (acc : List (String × String)) (k v : String)
    (p : String × String) (h : p ∈ dictSet acc k v) : p.1 = k ∨ p ∈ acc := by
  induction acc with
  | nil =>
    simp [dictSet] at h
    left
    rw [h]
  | cons q rest ih =>
    rcases q with ⟨k', v'⟩
    unfold dictSet at h
    by_cases h1 : k' = k
    · rw [if_pos h1] at h
      rcases List.mem_cons.mp h with h2 | h2
      · left
        rw [h2, h1]
      · right
        exact List.mem_cons_of_mem _ h2
    · rw [if_neg h1] at h
      rcases List.mem_cons.mp h with h2 | h2
      · right
        rw [h2]
        exact List.mem_cons_self _ _
      · rcases ih h2 with h3 | h3
        · left
          exact h3
        · right
          exact List.mem_cons_of_mem _ h3

theorem addOutbound_skip_excluded :
    ∀ (hs acc : List (String × String)),
      (∀ q ∈ acc, skipHeaders.contains (lowerStr q.1) = false) →
      ∀ p ∈ addOutboundHeaders acc hs, skipHeaders.contains (lowerStr p.1) = false := by
  intro hs
  induction hs with
  | nil => intro acc hacc p hp; exact hacc p hp
  | cons q rest ih =>
    rcases q with ⟨h, v⟩
    intro acc hacc p hp
    unfold addOutboundHeaders at hp
    by_cases hskip : skipHeaders.contains (lowerStr h) = true
    · rw [if_pos hskip] at hp
      exact ih acc hacc p hp
    · rw [if_neg hskip] at hp
      refine ih _ ?_ p hp
      intro q hq
      rcases mem_dictSet _ _ _ _ hq with h1 | h1
      · rw [h1, lower_pyCapitalize]
        exact Bool.not_eq_true _ ▸ hskip
      · exact hacc q h1

theorem getHeader_addOutbound :
    ∀ (hs acc : List (String × String)) (key : String),
      getHeader (addOutboundHeaders acc hs) key =
        match lastValueFor hs key with
        | some w => some w
        | none => getHeader acc key := by
  intro hs
  induction hs with
  | nil => intro acc key; rfl
  | cons q rest ih =>
    rcases q with ⟨h, v⟩
    intro acc key
    have elast : lastValueFor ((h, v) :: rest) key =
        match lastValueFor rest key with
        | some w => some w
        | none =>
          if skipHeaders.contains (lowerStr h) = false ∧ pyCapitalize h = key
          then some v else none := rfl
    by_cases hskip : skipHeaders.contains (lowerStr h) = true
    · have e1 : addOutboundHeaders acc ((h, v) :: rest) = addOutboundHeaders acc rest := by
        show (if skipHeaders.contains (lowerStr h) = true then addOutboundHeaders acc rest
          else addOutboundHeaders (dictSet acc (pyCapitalize h) v) rest) =
          addOutboundHeaders acc rest
        rw [if_pos hskip]
      have e2 : lastValueFor ((h, v) :: rest) key = lastValueFor rest key := by
        rw [elast]
        cases hl : lastValueFor rest key with
        | some w => rfl
        | none =>
          rw [if_neg (fun hc => by rw [hc.1] at hskip; exact Bool.false_ne_true hskip)]
      rw [e1, e2, ih]
    · have hns : skipHeaders.contains (lowerStr h) = false := by
        cases hcb : skipHeaders.contains (lowerStr h)
        · rfl
        · exact absurd hcb hskip
      have e1 : addOutboundHeaders acc ((h, v) :: rest) =
          addOutboundHeaders (dictSet acc (pyCapitalize h) v) rest := by
        show (if skipHeaders.contains (lowerStr h) = true then addOutboundHeaders acc rest
          else addOutboundHeaders (dictSet acc (pyCapitalize h) v) rest) =
          addOutboundHeaders (dictSet acc (pyCapitalize h) v) rest
        rw [if_neg hskip]
      rw [e1, ih]
      cases hl : lastValueFor rest key with
      | some w =>
        have e2 : lastValueFor ((h, v) :: rest) key = some w := by
          rw [elast, hl]
        rw [e2]
      | none =>
        have e2 : lastValueFor ((h, v) :: rest) key =
            if skipHeaders.contains (lowerStr h) = false ∧ pyCapitalize h = key
            then some v else none := by
          rw [elast, hl]
        rw [e2, getHeader_dictSet]
        by_cases hk : pyCapitalize h = key
        · rw [if_pos hk, if_pos (And.intro hns hk)]
        · rw [if_neg hk, if_neg (fun hc => hk hc.right)]

theorem getHeader_buildOutbound (hs : List (String × String)) (key : String) :
    getHeader (buildOutbound hs) key = lastValueFor hs key := by
  unfold buildOutbound
  rw [getHeader_addOutbound]
  cases lastValueFor hs key <;> rfl

/-! ## Claim theorems -/

/-- C8: every non-OPTIONS request whose path equals `/health` gets a
200 response with `Content-Type: application/json`, CORS headers and the
JSON health body, without the Access Gate being consulted: the result is
the same for every configuration (credentials included) and every set of
request headers (valid, invalid or missing authorization alike), and no
outbound request is issued. -/
theorem health_bypasses_gate (cfg : Config) (uptime : String) (req : Request)
    (up : Upstream) (h : req.path = "/health") :
    handle_request cfg uptime req up =
      { outbound := none,
        trace := [.statusLine 200, .header "Content-Type" "application/json"] ++
          corsEvents cfg req.headers ++
          [.endHeaders, .bodyBytes (healthBody uptime)] } := by
  unfold handle_request
  rw [if_pos h]

/-- C8 witness: credentials are configured and the request carries a
garbage `Authorization` header, yet `/health` answers 200. -/
theorem health_bypasses_gate_witness :
    handle_request
      { corsOrigin := .str "*", username := some "alice", password := some "secret" }
      "12.5"
      { method := "GET", path := "/health",
        headers := [("Authorization", "garbage")], body := "" }
      (.transportError "unreachable") =
      { outbound := none,
        trace := [.statusLine 200, .header "Content-Type" "application/json"] ++
          corsEvents
            { corsOrigin := .str "*", username := some "alice", password := some "secret" }
            [("Authorization", "garbage")] ++
          [.endHeaders, .bodyBytes (healthBody "12.5")] } :=
  health_bypasses_gate _ _ _ _ rfl

/-- C9: when the configured username or password is absent or empty
(Python truthiness), `check_auth` returns true for every request,
whatever authorization headers it carries — configuring only a username
does not gate access. -/
theorem auth_disabled_when_credentials_missing (cfg : Config)
    (hs : List (String × String))
    (h : pyTruthy cfg.username = false ∨ pyTruthy cfg.password = false) :
    check_auth cfg hs = true := by
  unfold check_auth
  rw [if_pos h]

/-- C9 witness: username configured, password absent, malformed
`Authorization` header — authentication still passes. -/
theorem auth_disabled_witness :
    check_auth { corsOrigin := .str "*", username := some "alice", password := none }
      [("Authorization", "Basic !!not-base64")] = true :=
  auth_disabled_when_credentials_missing _ _ (Or.inr rfl)

/-- C2 (code bug): when the upstream body stream fails after the success
status line and headers have been written, the generic exception handler
runs `send_response(500)` again, so a second status line (and a second
header block) is written into the same response: the write trace for
this request contains the status lines 200 and then 500, violating the
write-back-exactly-once invariant the spec states. -/
theorem stream_failure_writes_second_status :
    statusCodesOf (handle_request
      { corsOrigin := .str "*", username := none, password := none }
      "0.0"
      { method := "GET", path := "/stream",
        headers := [("X-Target-URL", "http://upstream.example/data")], body := "" }
      (.success 200 [("Content-Type", "application/octet-stream")] "partial data"
        (some "IncompleteRead"))).trace = [200, 500] := by
  rfl

/-- C6: on any outbound failure that is not an upstream HTTP error
(transport errors: DNS, connection refused, TLS, timeout, malformed
target URL), the client receives exactly a 500 response with
`Content-Type: application/json`, CORS headers, and the JSON error
envelope whose `error` key is `Proxy error` and whose `message` key is
the failure description.  `handle_request` is a total function, so the
serving process never crashes on this path. -/
theorem transport_failure_returns_500 (cfg : Config) (uptime : String)
    (req : Request) (url : String) (data : Option String) (msg : String)
    (hp : req.path ≠ "/health") (ha : check_auth cfg req.headers = true)
    (ht : resolveTarget req.headers req.path = some url)
    (hd : inboundData req.headers req.body = .ok data) :
    handle_request cfg uptime req (.transportError msg) =
      { outbound :=
          some { url := url, method := req.method,
                 headers := buildOutbound req.headers, data := data },
        trace := [.statusLine 500, .header "Content-Type" "application/json"] ++
          corsEvents cfg req.headers ++
          [.endHeaders, .bodyBytes (errorBody msg)] } := by
  unfold handle_request
  rw [if_neg hp, if_neg (by simp [ha]), ht, hd]
  rfl

/-- C6 witness: connection-refused failure on a concrete request. -/
theorem transport_failure_returns_500_witness :
    handle_request { corsOrigin := .str "*", username := none, password := none }
      "0.0"
      { method := "GET", path := "/api",
        headers := [("X-Target-URL", "http://refused.example/")], body := "" }
      (.transportError "urlopen error Connection refused") =
      { outbound :=
          some { url := "http://refused.example/", method := "GET",
                 headers := buildOutbound [("X-Target-URL", "http://refused.example/")],
                 data := none },
        trace := [.statusLine 500, .header "Content-Type" "application/json"] ++
          corsEvents { corsOrigin := .str "*", username := none, password := none }
            [("X-Target-URL", "http://refused.example/")] ++
          [.endHeaders, .bodyBytes (errorBody "urlopen error Connection refused")] } :=
  transport_failure_returns_500 _ _ _ _ _ _ (by decide) rfl rfl rfl

/-- C5: an upstream HTTP error (a distinguishable non-success response,
`urllib.error.HTTPError`) is passed through: the client receives the
upstream status code verbatim, the upstream headers filtered by the very
same `respHeaderEvents` connection/transfer-encoding rule as the success
path, and a body identical to the upstream body — never wrapped into a
proxy error. -/
theorem upstream_http_error_passthrough (cfg : Config) (uptime : String)
    (req : Request) (code : Nat) (uhs : List (String × String)) (ubody : String)
    (url : String) (data : Option String)
    (hp : req.path ≠ "/health") (ha : check_auth cfg req.headers = true)
    (ht : resolveTarget req.headers req.path = some url)
    (hd : inboundData req.headers req.body = .ok data) :
    handle_request cfg uptime req (.httpError code uhs ubody) =
      { outbound :=
          some { url := url, method := req.method,
                 headers := buildOutbound req.headers, data := data },
        trace := .statusLine code :: respHeaderEvents uhs ++
          corsEvents cfg req.headers ++ [.endHeaders, .bodyBytes ubody] } := by
  unfold handle_request
  rw [if_neg hp, if_neg (by simp [ha]), ht, hd]

/-- C5 witness: a target answering 404 with body
`\x7b"error":"not found"\x7d` yields a client-visible 404 with that
identical body. -/
theorem upstream_http_error_passthrough_witness :
    handle_request { corsOrigin := .str "*", username := none, password := none }
      "0.0"
      { method := "GET", path := "/api",
        headers := [("X-Target-URL", "http://t.example/missing")], body := "" }
      (.httpError 404 [("Content-Type", "application/json")]
        "\x7b\"error\":\"not found\"\x7d") =
      { outbound :=
          some { url := "http://t.example/missing", method := "GET",
                 headers := buildOutbound [("X-Target-URL", "http://t.example/missing")],
                 data := none },
        trace := .statusLine 404 ::
          respHeaderEvents [("Content-Type", "application/json")] ++
          corsEvents { corsOrigin := .str "*", username := none, password := none }
            [("X-Target-URL", "http://t.example/missing")] ++
          [.endHeaders, .bodyBytes "\x7b\"error\":\"not found\"\x7d"] } :=
  upstream_http_error_passthrough _ _ _ _ _ _ _ _ (by decide) rfl rfl rfl

/-- C3: on the success path, the response carries the upstream status
code verbatim, every upstream header except `connection` and
`transfer-encoding` (case-insensitive), the CORS header set appended,
and the body is relayed as a stream of `wfile.write` chunks, each at
most 8192 bytes, whose concatenation is byte-identical to the upstream
body — for a body of any length, never materialised as a single write. -/
theorem success_streams_body (cfg : Config) (uptime : String) (req : Request)
    (code : Nat) (uhs : List (String × String)) (ubody : String)
    (url : String) (data : Option String)
    (hp : req.path ≠ "/health") (ha : check_auth cfg req.headers = true)
    (ht : resolveTarget req.headers req.path = some url)
    (hd : inboundData req.headers req.body = .ok data) :
    handle_request cfg uptime req (.success code uhs ubody none) =
      { outbound :=
          some { url := url, method := req.method,
                 headers := buildOutbound req.headers, data := data },
        trace := .statusLine code :: respHeaderEvents uhs ++
          corsEvents cfg req.headers ++ [.endHeaders] ++
          (bodyChunks ubody).map .bodyBytes } ∧
    writtenBody (handle_request cfg uptime req (.success code uhs ubody none)).trace =
      ubody.data ∧
    (∀ s, WriteEvent.bodyBytes s ∈
        (handle_request cfg uptime req (.success code uhs ubody none)).trace →
      s.length ≤ 8192) := by
  have hmain : handle_request cfg uptime req (.success code uhs ubody none) =
      { outbound :=
          some { url := url, method := req.method,
                 headers := buildOutbound req.headers, data := data },
        trace := .statusLine code :: respHeaderEvents uhs ++
          corsEvents cfg req.headers ++ [.endHeaders] ++
          (bodyChunks ubody).map .bodyBytes } := by
    unfold handle_request
    rw [if_neg hp, if_neg (by simp [ha]), ht, hd]
    simp
  refine ⟨hmain, ?_, ?_⟩
  · rw [hmain]
    show writtenBody ((((WriteEvent.statusLine code :: respHeaderEvents uhs) ++
      corsEvents cfg req.headers) ++ [WriteEvent.endHeaders]) ++
      (bodyChunks ubody).map .bodyBytes) = ubody.data
    rw [writtenBody_append, writtenBody_append, writtenBody_append, writtenBody_cons,
      writtenBody_eq_nil _ (resp_no_body uhs),
      writtenBody_eq_nil _ (cors_no_body cfg req.headers),
      writtenBody_chunks]
    simp [bodyData, writtenBody]
  · intro s hmem
    rw [hmain] at hmem
    simp only [List.mem_cons, List.mem_append, List.mem_singleton] at hmem
    rcases hmem with (((h | h) | h) | h) | h
    · exact absurd h (by simp)
    · have := resp_no_body uhs _ h
      simp [bodyData] at this
    · have := cors_no_body cfg req.headers _ h
      simp [bodyData] at this
    · simp at h
    · rcases List.mem_map.mp h with ⟨t, hmemt, heq⟩
      have hts : t = s := by injection heq
      subst hts
      rcases List.mem_map.mp hmemt with ⟨l, hmeml, hmk⟩
      rw [← hmk]
      exact chunksAux_bounded ubody.data.length ubody.data l hmeml

/-- C3 witness: a concrete success relay; the written body equals the
upstream body bytes. -/
theorem success_streams_body_witness :
    writtenBody (handle_request
      { corsOrigin := .str "*", username := none, password := none }
      "0.0"
      { method := "GET", path := "/api",
        headers := [("X-Target-URL", "http://t.example/")], body := "" }
      (.success 200 [("Content-Type", "text/plain")] "hello world" none)).trace =
      ("hello world" : String).data :=
  (success_streams_body
    { corsOrigin := .str "*", username := none, password := none } "0.0"
    { method := "GET", path := "/api",
      headers := [("X-Target-URL", "http://t.example/")], body := "" }
    200 [("Content-Type", "text/plain")] "hello world" "http://t.example/" none
    (by decide) rfl rfl rfl).2.1

/-- C4 counterexample: the claim says that whenever the `X-Target-URL`
header is present its value is used as the target, even when a `?url=`
query parameter is also present.  Here the header is present (with the
empty value, which Python truthiness treats as missing), and the target
actually used is the query parameter value, not the header value. -/
theorem target_empty_header_counterexample :
    msgGet [("X-Target-URL", "")] "X-Target-URL" = some "" ∧
    resolveTarget [("X-Target-URL", "")] "/p?url=http://example.test/bar" =
      some "http://example.test/bar" ∧
    ("http://example.test/bar" : String) ≠ "" := by
  refine ⟨rfl, rfl, by decide⟩

/-- C4 amended: target resolution for an authorized non-`/health`
request: a non-empty `X-Target-URL` header wins (even when `?url=` is
also present); when the header is absent or empty, the first non-blank
`url` query parameter of the request path is used (parsed with
`parse_qs` defaults, which drop blank values); when that leaves nothing,
the proxy answers 400 with CORS headers and the exact body text
`Missing target URL. Use X-Target-URL header or ?url= parameter`, and no
outbound request is issued. -/
theorem target_resolution (cfg : Config) (uptime : String) (req : Request)
    (up : Upstream)
    (hp : req.path ≠ "/health") (ha : check_auth cfg req.headers = true) :
    (∀ t, msgGet req.headers "X-Target-URL" = some t → t ≠ "" →
      resolveTarget req.headers req.path = some t) ∧
    ((msgGet req.headers "X-Target-URL" = none ∨
      msgGet req.headers "X-Target-URL" = some "") →
      resolveTarget req.headers req.path =
        (match firstUrlParam (urlQuery req.path) with
         | some v => if v = "" then none else some v
         | none => none)) ∧
    (resolveTarget req.headers req.path = none →
      handle_request cfg uptime req up =
        { outbound := none,
          trace := [.statusLine 400] ++ corsEvents cfg req.headers ++
            [.endHeaders,
             .bodyBytes "Missing target URL. Use X-Target-URL header or ?url= parameter"] }) := by
  refine ⟨?_, ?_, ?_⟩
  · intro t hm hne
    simp [resolveTarget, hm, hne]
  · intro hdisj
    rcases hdisj with hm | hm
    · simp [resolveTarget, hm]
    · simp [resolveTarget, hm]
  · intro hnone
    unfold handle_request
    rw [if_neg hp, if_neg (by simp [ha]), hnone]

/-- C4 witness: a request with only the header resolves to the header
value; one with only the query parameter resolves there; one with
neither is answered 400 without an outbound request. -/
theorem target_resolution_witness :
    resolveTarget [("X-Target-URL", "http://example.test/foo")] "/p" =
      some "http://example.test/foo" ∧
    handle_request { corsOrigin := .str "*", username := none, password := none }
      "0.0" { method := "GET", path := "/p", headers := [], body := "" }
      (.transportError "unused") =
      { outbound := none,
        trace := [.statusLine 400] ++
          corsEvents { corsOrigin := .str "*", username := none, password := none } [] ++
          [.endHeaders,
           .bodyBytes "Missing target URL. Use X-Target-URL header or ?url= parameter"] } :=
  ⟨(target_resolution { corsOrigin := .str "*", username := none, password := none }
      "0.0" { method := "GET", path := "/p",
              headers := [("X-Target-URL", "http://example.test/foo")], body := "" }
      (.transportError "unused") (by decide) rfl).1
      "http://example.test/foo" rfl (by decide),
   (target_resolution { corsOrigin := .str "*", username := none, password := none }
      "0.0" { method := "GET", path := "/p", headers := [], body := "" }
      (.transportError "unused") (by decide) rfl).2.2 rfl⟩

/-- C1 counterexample: the claim says every non-skipped inbound header
passes through unmodified and a header sent with several values appears
in the outbound request with all of them.  A client sending `X-Foo: a`
and `X-Foo: b` gets a single outbound header `X-foo: b`
(`Request.add_header` capitalizes the name and stores into a dict, so
the second value overwrites the first and the value `a` is dropped). -/
theorem multivalue_header_counterexample :
    buildOutbound [("X-Foo", "a"), ("X-Foo", "b")] = [("X-foo", "b")] := rfl

/-- C1 amended: the outbound request contains no header whose name
case-insensitively equals one of
`host, connection, proxy-authorization, x-target-url, origin, referer`;
every other inbound header is forwarded under its capitalized name with
its value unmodified, except that headers sharing a (case-insensitive)
name collapse to a single entry holding the last inbound value:
looking any key up in the outbound header dict yields exactly the value
of the last non-skipped inbound header with that capitalized name. -/
theorem header_forwarding (hs : List (String × String)) :
    (∀ p ∈ buildOutbound hs, skipHeaders.contains (lowerStr p.1) = false) ∧
    (∀ key, getHeader (buildOutbound hs) key = lastValueFor hs key) := by
  constructor
  · exact addOutbound_skip_excluded hs []
      (fun q hq => absurd hq (List.not_mem_nil q))
  · intro key
    exact getHeader_buildOutbound hs key

/-- C1 witness: a custom `X-Api-Key` header passes through (under its
capitalized name) while `Host` is skipped. -/
theorem header_forwarding_witness :
    skipHeaders.contains (lowerStr "X-api-key") = false ∧
    getHeader (buildOutbound [("Host", "proxy.local"), ("X-Api-Key", "k")]) "X-api-key" =
      lastValueFor [("Host", "proxy.local"), ("X-Api-Key", "k")] "X-api-key" :=
  ⟨(header_forwarding [("Host", "proxy.local"), ("X-Api-Key", "k")]).1
      ("X-api-key", "k") (by decide),
   (header_forwarding [("Host", "proxy.local"), ("X-Api-Key", "k")]).2 "X-api-key"⟩

theorem lower_of_cap_auth (s : String) (h : pyCapitalize s = "Authorization") :
    lowerStr s = "authorization" := by
  rw [← lower_pyCapitalize s, h]
  rfl

theorem cap_auth_of_lower (s : String) (h : lowerStr s = "authorization") :
    pyCapitalize s = "Authorization" := by
  have e : pyCapitalize s = pyCapitalize "Authorization" :=
    pyCapitalize_of_lower_eq (by rw [h]; rfl)
  rw [e]
  rfl

theorem lastValueFor_auth_none :
    ∀ hs : List (String × String),
      hs.filter (fun p => lowerStr p.1 = "authorization") = [] →
      lastValueFor hs "Authorization" = none := by
  intro hs
  induction hs with
  | nil => intro _; rfl
  | cons q rest ih =>
    rcases q with ⟨a, b⟩
    intro hf
    rw [List.filter_cons] at hf
    by_cases ha : lowerStr a = "authorization"
    · rw [if_pos (by simp [ha])] at hf
      exact absurd hf (by simp)
    · rw [if_neg (by simp [ha])] at hf
      have elast : lastValueFor ((a, b) :: rest) "Authorization" =
          match lastValueFor rest "Authorization" with
          | some w => some w
          | none =>
            if skipHeaders.contains (lowerStr a) = false ∧
                pyCapitalize a = "Authorization"
            then some b else none := rfl
      rw [elast, ih hf, if_neg (fun hc => ha (lower_of_cap_auth a hc.2))]

theorem lastValueFor_of_filter_auth :
    ∀ (hs : List (String × String)) (n v : String),
      hs.filter (fun p => lowerStr p.1 = "authorization") = [(n, v)] →
      lastValueFor hs "Authorization" = some v := by
  intro hs
  induction hs with
  | nil => intro n v h; exact absurd h (by simp)
  | cons q rest ih =>
    rcases q with ⟨a, b⟩
    intro n v h
    rw [List.filter_cons] at h
    have elast : lastValueFor ((a, b) :: rest) "Authorization" =
        match lastValueFor rest "Authorization" with
        | some w => some w
        | none =>
          if skipHeaders.contains (lowerStr a) = false ∧
              pyCapitalize a = "Authorization"
          then some b else none := rfl
    by_cases ha : lowerStr a = "authorization"
    · rw [if_pos (by simp [ha])] at h
      have hhead : (a, b) = (n, v) ∧
          rest.filter (fun p => lowerStr p.1 = "authorization") = [] := by
        have := List.cons.injEq (a, b)
          (rest.filter (fun p => lowerStr p.1 = "authorization")) (n, v) [] ▸ h
        exact ⟨this.1, this.2⟩
      rw [elast, lastValueFor_auth_none rest hhead.2,
        if_pos ⟨by rw [ha]; rfl, cap_auth_of_lower a ha⟩]
      have : b = v := congrArg Prod.snd hhead.1
      rw [this]
    · rw [if_neg (by simp [ha])] at h
      rw [elast, ih n v h]

/-- C10: the `Authorization` header is not in the outbound skip set
(only `Proxy-Authorization` is): a relayed request carrying exactly one
`Authorization` header (of any letter case) has that header forwarded to
the target with its value verbatim, under the capitalized name
`Authorization` — so credentials used to authenticate to the proxy via
`Authorization` are disclosed to the target. -/
theorem authorization_header_forwarded (hs : List (String × String)) (n v : String)
    (h : hs.filter (fun p => lowerStr p.1 = "authorization") = [(n, v)]) :
    skipHeaders.contains "authorization" = false ∧
    getHeader (buildOutbound hs) "Authorization" = some v := by
  refine ⟨rfl, ?_⟩
  rw [getHeader_buildOutbound]
  exact lastValueFor_of_filter_auth hs n v h

/-- C10 witness: a Basic credential sent as `Authorization` reaches the
outbound header dict unchanged. -/
theorem authorization_header_forwarded_witness :
    skipHeaders.contains "authorization" = false ∧
    getHeader (buildOutbound [("Authorization", "Basic YWxpY2U6c2VjcmV0"),
      ("X-Target-URL", "http://t.example/")]) "Authorization" =
      some "Basic YWxpY2U6c2VjcmV0" :=
  authorization_header_forwarded
    [("Authorization", "Basic YWxpY2U6c2VjcmV0"), ("X-Target-URL", "http://t.example/")]
    "Authorization" "Basic YWxpY2U6c2VjcmV0" (by decide)

/-- C7 counterexample: the claim reads the headers with "first present
wins".  With credentials `(user, pass)` configured, a request carrying a
present-but-empty `Proxy-Authorization` and a valid `Authorization`
header authenticates successfully (`check_auth`, mirroring the Python
`or`, falls back on the empty value), whereas the claimed first-present-
wins rule (`claimedAuth`) would reject it. -/
theorem auth_fallback_counterexample :
    check_auth { corsOrigin := .str "*", username := some "user", password := some "pass" }
      [("Proxy-Authorization", ""), ("Authorization", "Basic dXNlcjpwYXNz")] = true ∧
    claimedAuth { corsOrigin := .str "*", username := some "user", password := some "pass" }
      [("Proxy-Authorization", ""), ("Authorization", "Basic dXNlcjpwYXNz")] = false :=
  ⟨rfl, rfl⟩

/-- C7 amended: with credentials configured (both non-empty),
`check_auth` succeeds exactly when the effective header — the
`Proxy-Authorization` value if present and non-empty, otherwise the
`Authorization` value — exists and splits at its first space into a
scheme token equal to `basic` case-insensitively plus a remainder that
base64-decodes to a UTF-8 string containing a colon, whose parts before
and after the first colon are exactly the configured username and
password (case-sensitive).  Every failure (no header, no space, wrong
scheme, base64 error, UTF-8 error, missing colon, wrong credentials)
returns false rather than raising, so the client sees 401, never 500. -/
theorem check_auth_characterization (cfg : Config) (hs : List (String × String))
    (hu : pyTruthy cfg.username = true) (hpw : pyTruthy cfg.password = true) :
    check_auth cfg hs = true ↔
      ∃ raw scheme creds decoded u p,
        effectiveAuthHeader hs = some raw ∧
        splitOnce raw ' ' = some (scheme, creds) ∧
        lowerStr scheme = "basic" ∧
        b64decodeUtf8 creds = some decoded ∧
        splitOnce decoded ':' = some (u, p) ∧
        cfg.username = some u ∧ cfg.password = some p := by
  have hcond : ¬(pyTruthy cfg.username = false ∨ pyTruthy cfg.password = false) := by
    simp [hu, hpw]
  unfold check_auth
  rw [if_neg hcond]
  split
  · rename_i heq
    constructor
    · intro h
      exact Bool.noConfusion h
    · rintro ⟨raw, scheme, creds, d, u, p, h1, _⟩
      rw [heq] at h1
      exact Option.noConfusion h1
  · rename_i raw heq
    split
    · rename_i hraw
      constructor
      · intro h
        exact Bool.noConfusion h
      · rintro ⟨rawA, scheme, creds, d, u, p, h1, h2, _⟩
        rw [heq] at h1
        rw [← Option.some.inj h1, hraw] at h2
        exact Option.noConfusion ((rfl : splitOnce "" ' ' = none) ▸ h2)
    · rename_i hraw
      split
      · rename_i heq2
        constructor
        · intro h
          exact Bool.noConfusion h
        · rintro ⟨rawA, scheme, creds, d, u, p, h1, h2, _⟩
          rw [heq] at h1
          rw [← Option.some.inj h1, heq2] at h2
          exact Option.noConfusion h2
      · rename_i authType credentials heq2
        split
        · rename_i hbneq
          constructor
          · intro h
            exact Bool.noConfusion h
          · rintro ⟨rawA, scheme, creds, d, u, p, h1, h2, h3, _⟩
            rw [heq] at h1
            rw [← Option.some.inj h1, heq2] at h2
            have hpair := Option.some.inj h2
            rw [← (Prod.mk.inj hpair).1] at h3
            exact absurd h3 hbneq
        · rename_i hbne2
          have hbeq : lowerStr authType = "basic" := not_not.mp hbne2
          split
          · rename_i heq3
            constructor
            · intro h
              exact Bool.noConfusion h
            · rintro ⟨rawA, scheme, creds, d, u, p, h1, h2, h3, h4, _⟩
              rw [heq] at h1
              rw [← Option.some.inj h1, heq2] at h2
              have hpair := Option.some.inj h2
              rw [← (Prod.mk.inj hpair).2, heq3] at h4
              exact Option.noConfusion h4
          · rename_i decoded heq3
            split
            · rename_i heq4
              constructor
              · intro h
                exact Bool.noConfusion h
              · rintro ⟨rawA, scheme, creds, d, u, p, h1, h2, h3, h4, h5, _⟩
                rw [heq] at h1
                rw [← Option.some.inj h1, heq2] at h2
                have hpair := Option.some.inj h2
                rw [← (Prod.mk.inj hpair).2, heq3] at h4
                rw [← Option.some.inj h4, heq4] at h5
                exact Option.noConfusion h5
            · rename_i u0 p0 heq4
              constructor
              · intro hok
                have hsplit := (Bool.and_eq_true _ _).mp hok
                exact ⟨raw, authType, credentials, decoded, u0, p0, heq, heq2, hbeq,
                  heq3, heq4, of_decide_eq_true hsplit.1, of_decide_eq_true hsplit.2⟩
              · rintro ⟨rawA, scheme, creds, d, u, p, h1, h2, h3, h4, h5, h6, h7⟩
                rw [heq] at h1
                rw [← Option.some.inj h1, heq2] at h2
                have hpair := Option.some.inj h2
                rw [← (Prod.mk.inj hpair).2, heq3] at h4
                rw [← Option.some.inj h4, heq4] at h5
                have hup := Option.some.inj h5
                apply (Bool.and_eq_true _ _).mpr
                exact ⟨decide_eq_true (by rw [(Prod.mk.inj hup).1]; exact h6),
                  decide_eq_true (by rw [(Prod.mk.inj hup).2]; exact h7)⟩

/-- C7 witness: a valid Basic credential authenticates; the theorem,
applied backwards at the explicit decoding chain, establishes it. -/
theorem check_auth_characterization_witness :
    check_auth { corsOrigin := .str "*", username := some "alice", password := some "secret" }
      [("Authorization", "Basic YWxpY2U6c2VjcmV0")] = true :=
  (check_auth_characterization
    { corsOrigin := .str "*", username := some "alice", password := some "secret" }
    [("Authorization", "Basic YWxpY2U6c2VjcmV0")] rfl rfl).mpr
    ⟨"Basic YWxpY2U6c2VjcmV0", "Basic", "YWxpY2U6c2VjcmV0", "alice:secret",
     "alice", "secret", rfl, rfl, rfl, rfl, rfl, rfl, rfl⟩

end Proxy
